import Mathlib

/-!
Verification of the Uganda_oemof repository's specification against its code.

The repository consists of thin orchestration scripts (`infer.py`, `optimize.py`,
`postprocess.py`, `prepare_heat_demand.py`) plus tests for the timeseries
stack/unstack codec living in the external `oemof_b3.tools.data_processing`
module.  The codec itself is not part of the source tree, so its two operations
are modelled from the specification (see the doc comments marked
`Modelled from the spec:`).  The heat-demand preparation script and the
optimize script are embedded directly from their Python source.

Conventions of the shallow embedding:
* timestamps are integers (offsets from an arbitrary epoch in units of the
  relevant frequency, e.g. hours), so an evenly spaced hourly index such as
  `2021-01-01 00:00 .. 02:00` becomes `[0, 1, 2]` with resolution `1`;
* numeric cell values are rationals (`ℚ`), modelling exact round-trip
  serialization of the numbers;
* a serialized `series` cell is modelled by the value list it encodes, since
  the spec requires serialization to preserve order and precision exactly;
* Python exceptions are modelled with `Except`: a raised exception is an
  `Except.error`, a normal return is `Except.ok`.
-/

/-- Decidable equality for `Except`, needed to evaluate the codec on concrete
inputs. -/
def exceptDecEq {ε α : Type} [DecidableEq ε] [DecidableEq α] :
    (a b : Except ε α) → Decidable (a = b)
  | .error e, .error f =>
    if h : e = f then .isTrue (congrArg Except.error h)
    else .isFalse (fun hc => h (Except.error.inj hc))
  | .error _, .ok _ => .isFalse (fun hc => Except.noConfusion hc)
  | .ok _, .error _ => .isFalse (fun hc => Except.noConfusion hc)
  | .ok a, .ok b =>
    if h : a = b then .isTrue (congrArg Except.ok h)
    else .isFalse (fun hc => h (Except.ok.inj hc))

instance {ε α : Type} [DecidableEq ε] [DecidableEq α] : DecidableEq (Except ε α) :=
  exceptDecEq

/-- Boolean substring test: `contains_str hay needle` is `true` iff `needle`
occurs contiguously inside `hay`.  This models the Python expression
`needle in hay` (and `Series.str.contains` for needles without regex
metacharacters, as used in the repository). -/
def contains_str (hay needle : String) : Bool :=
  (List.range (hay.data.length + 1)).any
    (fun i => (hay.data.drop i).take needle.data.length == needle.data)

/-- Modelled from the spec: the wide timeseries table of §3 of the spec
(`oemof_b3.tools.data_processing` is not part of the source tree).  A wide
table has a shared time index and named columns, each holding one value per
timestamp. -/
structure Wide where
  timeindex : List Int
  columns : List (String × List ℚ)
deriving DecidableEq

/-- Modelled from the spec: one stacked row record of §3 of the spec, with
exactly the five fields `var_name`, `timeindex_start`, `timeindex_stop`,
`timeindex_resolution`, `series`. -/
structure TsRow where
  var_name : String
  timeindex_start : Int
  timeindex_stop : Int
  timeindex_resolution : Int
  series : List ℚ
deriving DecidableEq

/-- Modelled from the spec: the fatal error classes of §7 of the spec
(input-shape errors and ambiguity errors of the codec). -/
inductive CodecError
  | duplicateColumn
  | duplicateVarName
  | inconsistentTimeindex
  | lengthMismatch
deriving DecidableEq

/-- Modelled from the spec: resolution inference for an evenly spaced index,
using the spec's sanctioned deterministic policy of taking the step between
the first two index entries (§4.1). -/
def infer_resolution (timeindex : List Int) : Int :=
  timeindex.getD 1 0 - timeindex.getD 0 0

/-- Modelled from the spec: the stacked row emitted for one column (§4.1):
the column name, the minimum and maximum of the (monotonically increasing)
time index, the inferred resolution, and the column's full value sequence. -/
def stack_row (timeindex : List Int) (c : String × List ℚ) : TsRow :=
  { var_name := c.1
    timeindex_start := timeindex.headD 0
    timeindex_stop := timeindex.getLastD 0
    timeindex_resolution := infer_resolution timeindex
    series := c.2 }

/-- Modelled from the spec: `stack_timeseries` of
`oemof_b3.tools.data_processing` (§4.1 of the spec).  Emits one stacked row
per column in original left-to-right order; a wide table with two identically
named columns fails (duplicate-column rejection, §8). -/
def stack_timeseries (df : Wide) : Except CodecError (List TsRow) :=
  if (df.columns.map Prod.fst).Nodup then
    .ok (df.columns.map (stack_row df.timeindex))
  else .error .duplicateColumn

/-- Modelled from the spec: reconstruction of the time index from the triple
`(timeindex_start, timeindex_stop, timeindex_resolution)` carried by the
stacked rows (§4.2). -/
def reconstruct_timeindex (start stop resolution : Int) : List Int :=
  (List.range ((stop - start) / resolution + 1).toNat).map
    (fun i : ℕ => start + resolution * (i : Int))

/-- Modelled from the spec: `unstack_timeseries` of
`oemof_b3.tools.data_processing` (§4.2 of the spec).  All rows must share one
`(start, stop, resolution)` triple; duplicate `var_name`s are an ambiguity
error; a series whose length does not match the reconstructed index length is
a fatal shape-mismatch error. -/
def unstack_timeseries (rows : List TsRow) : Except CodecError Wide :=
  match rows with
  | [] => .ok ⟨[], []⟩
  | r0 :: rest =>
    if ((r0 :: rest).map TsRow.var_name).Nodup then
      if rest.all (fun r =>
          r.timeindex_start == r0.timeindex_start &&
          r.timeindex_stop == r0.timeindex_stop &&
          r.timeindex_resolution == r0.timeindex_resolution) then
        let timeindex := reconstruct_timeindex r0.timeindex_start
          r0.timeindex_stop r0.timeindex_resolution
        if (r0 :: rest).all (fun r => r.series.length == timeindex.length) then
          .ok ⟨timeindex, (r0 :: rest).map (fun r => (r.var_name, r.series))⟩
        else .error .lengthMismatch
      else .error .inconsistentTimeindex
    else .error .duplicateVarName

/-- The wellformedness invariant of §3 of the spec on the time index: at least
two entries (so that a single resolution is inferable), a positive inferred
step, and constant spacing equal to that step. -/
def evenlySpaced (timeindex : List Int) : Prop :=
  2 ≤ timeindex.length ∧ 0 < infer_resolution timeindex ∧
    ∀ i < timeindex.length - 1,
      timeindex.getD (i + 1) 0 = timeindex.getD i 0 + infer_resolution timeindex

instance (timeindex : List Int) : Decidable (evenlySpaced timeindex) := by
  unfold evenlySpaced; infer_instance

/-- Round trip of the codec: stack, then unstack. -/
def stack_unstack (df : Wide) : Except CodecError Wide :=
  (stack_timeseries df).bind unstack_timeseries

/-!
## `scripts/prepare_heat_demand.py`

Embedded from source.  A scalar record carries the columns of the b3 scalars
table that the script reads; `load_b3_scalars` (external) is modelled by
passing the list of records directly.
-/

/-- One row of the b3 scalars table, with the columns used by
`prepare_heat_demand.py`. -/
structure ScalarRow where
  name : String
  tech : String
  carrier : String
  region : String
  scenario : String
  var_unit : String
  var_value : ℚ
deriving DecidableEq

/-- Modelled from the spec: `filter_df` of `oemof_b3.tools.data_processing`
(not in the source tree; the script uses it to keep the rows whose given
column equals the given value). -/
def filter_df (df : List ScalarRow) (column : ScalarRow → String) (value : String) :
    List ScalarRow :=
  df.filter (fun r => column r == value)

/-- The consumer list of `get_heat_demand` (source line 197). -/
def consumers : List String := ["ghd", "efh", "mfh"]

/-- The column key `consumer + "_" + carrier` used by
`check_central_decentral`. -/
def demand_key (consumer carrier : String) : String :=
  consumer ++ "_" ++ carrier

/-- `check_central_decentral` (source lines 140-167): if the column
`consumer + "_" + carrier` already exists in `demands`, add `value` to its
single entry, otherwise create the column holding `value`.  The Python
function mutates the frame in place; here the updated association list is
returned. -/
def check_central_decentral (demands : List (String × ℚ)) (value : ℚ)
    (consumer carrier : String) : List (String × ℚ) :=
  if (demands.lookup (demand_key consumer carrier)).isSome then
    demands.map (fun p =>
      if p.1 = demand_key consumer carrier then (p.1, p.2 + value) else p)
  else demands ++ [(demand_key consumer carrier, value)]

/-- The four `filter_df` steps of `get_heat_demand` (source lines 201-204):
keep demand rows of the given carrier, region and scenario. -/
def heat_filtered (sc : List ScalarRow) (scenario carrier region : String) :
    List ScalarRow :=
  filter_df (filter_df (filter_df (filter_df sc ScalarRow.tech "demand")
    ScalarRow.carrier carrier) ScalarRow.region region) ScalarRow.scenario scenario

/-- The rows of the filtered scalars whose `name` contains the consumer
(source line 215, `sc_filtered["name"].str.contains(consumer)`; the consumer
strings contain no regex metacharacters). -/
def consumer_rows (sc_filtered : List ScalarRow) (consumer : String) :
    List ScalarRow :=
  sc_filtered.filter (fun r => contains_str r.name consumer)

/-- The duplicate-demand warning printed by `get_heat_demand`
(source lines 217-225). -/
def duplicate_warning (consumer carrier region scenario : String) : String :=
  "User warning: There is duplicate demand of carrier " ++ carrier ++
  ", consumer " ++ consumer ++ ", region " ++ region ++ " and scenario " ++
  scenario ++ ". The demand is going to be summed up."

/-- Errors raised by `get_heat_demand`: the `IndexError` from taking
`values[0]` of an empty filtered frame, and the explicit `ValueError` on a
unit mismatch (source lines 206-210). -/
inductive DemandError
  | indexError
  | unitMismatch
deriving DecidableEq

/-- The inner loop of `get_heat_demand` (source lines 227-228): fold
`check_central_decentral` over the `var_value`s of one consumer's rows. -/
def process_consumer (carrier : String) (sc_filtered : List ScalarRow)
    (demands : List (String × ℚ)) (consumer : String) : List (String × ℚ) :=
  ((consumer_rows sc_filtered consumer).map ScalarRow.var_value).foldl
    (fun d v => check_central_decentral d v consumer carrier) demands

/-- `get_heat_demand` (source lines 170-230).  Filters the scalars to demand
rows of the carrier, region and scenario; raises `IndexError` if nothing is
left (`values[0]` on an empty array); raises the unit-mismatch `ValueError`
unless every row carries the first row's `var_unit`; then for each consumer
`ghd`, `efh`, `mfh` warns on duplicates and sums their `var_value`s into the
`consumer_carrier` column.  Because all units equal the first one after the
check, `list(set(...))` is the one-element list of that unit.  Returns
(demands, demand_unit, warnings). -/
def get_heat_demand (sc : List ScalarRow) (scenario carrier region : String) :
    Except DemandError (List (String × ℚ) × List String × List String) :=
  match heat_filtered sc scenario carrier region with
  | [] => .error .indexError
  | r0 :: rest =>
    if (r0 :: rest).all (fun r => r.var_unit == r0.var_unit) then
      let warnings := consumers.filterMap (fun c =>
        if 1 < (consumer_rows (r0 :: rest) c).length then
          some (duplicate_warning c carrier region scenario)
        else none)
      let demands := consumers.foldl (process_consumer carrier (r0 :: rest)) []
      .ok (demands, [r0.var_unit], warnings)
    else .error .unitMismatch

/-- The row-wise sums of the three consumer heat-load columns, in the order
the columns are added in `calculate_heat_load` (`efh`, `mfh`, `ghd`):
`heat_load_consumer.sum(axis=1)` (source line 307). -/
def heat_load_row_sums (efh mfh ghd : List ℚ) : List ℚ :=
  List.zipWith (· + ·) (List.zipWith (· + ·) efh mfh) ghd

/-- `calculate_heat_load` (source lines 233-315), with the three consumer
profiles delivered by the external `bdew.HeatBuilding` model taken as inputs
(they are black boxes per §6 of the spec).  Sums the three columns row-wise
into the single column `carrier + "-load-profile"` and divides it by its own
total. -/
def calculate_heat_load (carrier : String) (efh mfh ghd : List ℚ) :
    String × List ℚ :=
  let row_sums := heat_load_row_sums efh mfh ghd
  (carrier ++ "-load-profile", row_sums.map (fun x => x / row_sums.sum))

/-- The search array `np.arange(1990, 2051)` of `get_year`
(source line 86): the years 1990 .. 2050. -/
def years_search_array : List Nat :=
  (List.range 61).map (fun i => 1990 + i)

/-- The `ValueError` message of `get_year` (source lines 97-101), modelled by
a marker string. -/
def year_error_message : String :=
  "Your file is missing a year or has multiple years in its name."

/-- `get_year` (source lines 71-103): collect the years of 1990..2050 whose
decimal representation occurs in the file name; return the year if exactly
one was found, otherwise raise `ValueError`. -/
def get_year (file_name : String) : Except String Nat :=
  match years_search_array.filter (fun y => contains_str file_name (toString y)) with
  | [y] => .ok y
  | _ => .error year_error_message

/-!
## `scripts/optimize.py`

Embedded from source (`__main__`, lines 73-102).  The external oemof calls
(`EnergySystem.from_datapackage`, `Model`, `constraints.emission_limit`,
`m.solve`) are black boxes; each is modelled by an `Except`-valued outcome
supplied in an environment.  Python's `try/except/else` becomes a match on
the chained outcome: the `except` arm logs and re-raises, the `else` arm
computes and dumps the results.
-/

/-- Outcomes of the external oemof calls appearing inside the `try` block of
`optimize.py`, over abstract energy-system and model types. -/
structure OptSteps (ES M : Type) where
  energysystem_from_datapackage : Except String ES
  model_of : ES → Except String M
  emission_limit : Option Int
  add_emission_constraint : M → Int → Except String M
  solve : M → Except String M

/-- The body of the `try` block of `optimize.py` (source lines 74-88): build
the energy system from the datapackage, construct the model, add the emission
constraint when a limit is set, and solve. -/
def optimize_try_block {ES M : Type} (st : OptSteps ES M) : Except String M :=
  st.energysystem_from_datapackage.bind (fun es =>
    (st.model_of es).bind (fun m =>
      match st.emission_limit with
      | some l => (st.add_emission_constraint m l).bind st.solve
      | none => st.solve m))

/-- The message passed to `logger.exception` in the `except` arm
(source lines 90-92); it carries the preprocessed datapackage path. -/
def optimize_log_message (preprocessed : String) : String :=
  "Could not optimize energysystem for datapackage from " ++ preprocessed

/-- Observable outcome of running `optimize.py`: what was logged, whether the
script re-raised or returned, and whether `es.dump` ran. -/
structure OptOutcome (M : Type) where
  log : List String
  result : Except String M
  dumped : Bool
deriving DecidableEq

/-- The `try/except/else` of `optimize.py` (source lines 73-102): on any
failure inside the `try` block, log the failure context and re-raise the same
exception without dumping; only when everything succeeded, process and dump
the results. -/
def optimize_main {ES M : Type} (st : OptSteps ES M) (preprocessed : String) :
    OptOutcome M :=
  match optimize_try_block st with
  | .error e => ⟨[optimize_log_message preprocessed], .error e, false⟩
  | .ok m => ⟨[], .ok m, true⟩

/-!
## Lemmas about the codec
-/

theorem stack_row_var_name (timeindex : List Int) (c : String × List ℚ) :
    (stack_row timeindex c).var_name = c.1 := rfl

theorem stack_row_series (timeindex : List Int) (c : String × List ℚ) :
    (stack_row timeindex c).series = c.2 := rfl

/-- On an evenly spaced index, the entry at position `i` is the first entry
plus `i` steps. -/
theorem evenlySpaced_getD (timeindex : List Int) (h : evenlySpaced timeindex)
    (i : ℕ) (hi : i < timeindex.length) :
    timeindex.getD i 0 = timeindex.getD 0 0 + infer_resolution timeindex * i := by
  induction i with
  | zero => simp
  | succ n ih =>
    have hstep := h.2.2 n (by omega)
    rw [hstep, ih (by omega)]
    push_cast
    ring

theorem headD_zero_eq_getD (l : List Int) : l.headD 0 = l.getD 0 0 := by
  cases l <;> rfl

theorem getLastD_zero_eq_getD (l : List Int) :
    l.getLastD 0 = l.getD (l.length - 1) 0 := by
  rw [List.getLastD_eq_getLast?, List.getLast?_eq_get?, List.getD_eq_get?]

/-- On an evenly spaced index, reconstructing a time index from the stacked
fields recovers the original index. -/
theorem reconstruct_stack_timeindex (timeindex : List Int)
    (h : evenlySpaced timeindex) :
    reconstruct_timeindex (timeindex.headD 0) (timeindex.getLastD 0)
      (infer_resolution timeindex) = timeindex := by
  have hlen := h.1
  have hres := h.2.1
  have hlast : timeindex.getLastD 0
      = timeindex.getD 0 0 + infer_resolution timeindex * (timeindex.length - 1 : ℕ) := by
    rw [getLastD_zero_eq_getD]
    exact evenlySpaced_getD timeindex h _ (by omega)
  have hhead : timeindex.headD 0 = timeindex.getD 0 0 := headD_zero_eq_getD _
  have hcount : ((timeindex.getLastD 0 - timeindex.headD 0) / infer_resolution timeindex
      + 1).toNat = timeindex.length := by
    rw [hlast, hhead]
    have harg : timeindex.getD 0 0 + infer_resolution timeindex * ((timeindex.length - 1 : ℕ) : ℤ)
        - timeindex.getD 0 0 = infer_resolution timeindex * ((timeindex.length - 1 : ℕ) : ℤ) := by
      ring
    rw [harg, Int.mul_ediv_cancel_left _ (by omega)]
    omega
  unfold reconstruct_timeindex
  rw [hcount]
  apply List.ext_get
  · simp
  · intro i h1 h2
    simp only [List.get_map, List.get_range]
    rw [hhead, ← evenlySpaced_getD timeindex h i h2]
    exact List.getD_eq_get _ _ h2

/-!
## Claims about the codec
-/

/-- C1 (amended): for every wide table with an evenly spaced time index, one
value per timestamp in each column, unique column names, and at least one
column, unstacking the stacked table reproduces the table exactly — same
columns in the same order, same index, same values.  (The zero-column case
fails: see the counterexample.) -/
theorem unstack_stack_roundtrip (df : Wide)
    (hes : evenlySpaced df.timeindex)
    (hcollen : ∀ c ∈ df.columns, c.2.length = df.timeindex.length)
    (hnodup : (df.columns.map Prod.fst).Nodup)
    (hne : df.columns ≠ []) :
    stack_unstack df = Except.ok df := by
  obtain ⟨idx, cols⟩ := df
  simp only at hes hcollen hnodup hne ⊢
  obtain ⟨c0, ctl, rfl⟩ : ∃ c0 ctl, cols = c0 :: ctl := by
    cases cols with
    | nil => exact absurd rfl hne
    | cons a t => exact ⟨a, t, rfl⟩
  have hnames : ((c0 :: ctl).map (stack_row idx)).map TsRow.var_name
      = (c0 :: ctl).map Prod.fst := by
    simp [List.map_map, stack_row]
  have hrebuild : ((c0 :: ctl).map (stack_row idx)).map (fun r => (r.var_name, r.series))
      = c0 :: ctl := by
    rw [List.map_map]
    have hid : ∀ c ∈ c0 :: ctl,
        ((fun r => (r.var_name, r.series)) ∘ stack_row idx) c = id c := by
      intro c _
      rfl
    rw [List.map_congr_left hid, List.map_id]
  have hreidx : reconstruct_timeindex (stack_row idx c0).timeindex_start
      (stack_row idx c0).timeindex_stop (stack_row idx c0).timeindex_resolution
      = idx := by
    simpa [stack_row] using reconstruct_stack_timeindex idx hes
  show (stack_timeseries ⟨idx, c0 :: ctl⟩).bind unstack_timeseries
      = Except.ok ⟨idx, c0 :: ctl⟩
  rw [stack_timeseries, if_pos hnodup]
  show unstack_timeseries ((c0 :: ctl).map (stack_row idx))
      = Except.ok ⟨idx, c0 :: ctl⟩
  rw [List.map_cons, unstack_timeseries]
  rw [if_pos (by rw [show stack_row idx c0 :: ctl.map (stack_row idx)
        = ((c0 :: ctl).map (stack_row idx)) from rfl, hnames]; exact hnodup)]
  rw [if_pos (by
    simp only [List.all_eq_true, List.mem_map]
    rintro r ⟨c, hc, rfl⟩
    simp [stack_row])]
  simp only [hreidx]
  rw [if_pos (by
    simp only [List.all_eq_true]
    intro r hr
    rcases List.mem_cons.mp hr with rfl | hmem
    · simpa [stack_row] using hcollen c0 (by simp)
    · obtain ⟨c, hc, rfl⟩ := List.mem_map.mp hmem
      simpa [stack_row] using hcollen c (List.mem_cons_of_mem _ hc))]
  rw [show stack_row idx c0 :: ctl.map (stack_row idx)
      = ((c0 :: ctl).map (stack_row idx)) from rfl, hrebuild]

/-- Witness for C1: the round-trip theorem applied to the concrete two-column
hourly table of the test data. -/
theorem unstack_stack_roundtrip_witness :
    stack_unstack ⟨[0, 1, 2], [("A", [1, 2, 3]), ("B", [4, 5, 6])]⟩
      = Except.ok ⟨[0, 1, 2], [("A", [1, 2, 3]), ("B", [4, 5, 6])]⟩ :=
  unstack_stack_roundtrip ⟨[0, 1, 2], [("A", [1, 2, 3]), ("B", [4, 5, 6])]⟩
    (by decide) (by decide) (by decide) (by decide)

/-- Counterexample for C1 as stated: a wide table with an evenly spaced
three-entry index, (vacuously) unique column names and zero columns does not
round-trip — stacking it loses the index, so unstacking gives back the empty
table, not the original. -/
theorem unstack_stack_roundtrip_cex_zero_columns :
    evenlySpaced ([0, 1, 2] : List Int)
    ∧ ((([] : List (String × List ℚ))).map Prod.fst).Nodup
    ∧ stack_unstack ⟨[0, 1, 2], []⟩ = Except.ok ⟨[], []⟩
    ∧ (⟨[], []⟩ : Wide) ≠ ⟨[0, 1, 2], []⟩ := by
  refine ⟨by decide, by decide, by decide, by decide⟩

/-- C2 (amended): for every wide table whose column names are pairwise
distinct (including the zero-column table), `stack` succeeds and returns one
stacked row per column, in the table's left-to-right column order, each row
being the five-field record `(var_name, timeindex_start, timeindex_stop,
timeindex_resolution, series)` built from the corresponding column.  (On a
table with duplicate column names `stack` fails instead: see the
counterexample.) -/
theorem stack_shape_preservation (df : Wide)
    (hnodup : (df.columns.map Prod.fst).Nodup) :
    stack_timeseries df = Except.ok (df.columns.map (stack_row df.timeindex))
    ∧ (df.columns.map (stack_row df.timeindex)).length = df.columns.length
    ∧ (df.columns.map (stack_row df.timeindex)).map TsRow.var_name
        = df.columns.map Prod.fst := by
  refine ⟨?_, by simp, by simp [List.map_map, stack_row]⟩
  rw [stack_timeseries, if_pos hnodup]

/-- Witness for C2: shape preservation on a zero-column table. -/
theorem stack_shape_preservation_witness :
    stack_timeseries ⟨[0, 1, 2], []⟩
      = Except.ok (([] : List (String × List ℚ)).map (stack_row [0, 1, 2]))
    ∧ (([] : List (String × List ℚ)).map (stack_row [0, 1, 2])).length
        = ([] : List (String × List ℚ)).length
    ∧ ((([] : List (String × List ℚ)).map (stack_row [0, 1, 2])).map TsRow.var_name
        = ([] : List (String × List ℚ)).map Prod.fst) :=
  stack_shape_preservation ⟨[0, 1, 2], []⟩ (by decide)

/-- Counterexample for C2 as stated: on a wide table with two columns both
named `A`, `stack` raises the duplicate-column error instead of returning a
two-row stacked table. -/
theorem stack_shape_cex_duplicate_columns :
    stack_timeseries ⟨[0, 1], [("A", [1, 2]), ("A", [3, 4])]⟩
      = Except.error CodecError.duplicateColumn := by decide

/-- C3: feeding `unstack` a stacked table in which some row's series length
differs from the length of the time index reconstructed from that row's
`(timeindex_start, timeindex_stop, timeindex_resolution)` always raises a
fatal error: no wide table is returned, so nothing is truncated or padded. -/
theorem unstack_length_mismatch_fails (rows : List TsRow)
    (h : ∃ r ∈ rows, r.series.length ≠ (reconstruct_timeindex r.timeindex_start
      r.timeindex_stop r.timeindex_resolution).length) :
    ∃ e, unstack_timeseries rows = Except.error e := by
  obtain ⟨r, hr, hrlen⟩ := h
  cases rows with
  | nil => simp at hr
  | cons r0 rest =>
    rw [unstack_timeseries]
    by_cases h1 : ((r0 :: rest).map TsRow.var_name).Nodup
    · rw [if_pos h1]
      by_cases h2 : rest.all (fun r =>
          r.timeindex_start == r0.timeindex_start &&
          r.timeindex_stop == r0.timeindex_stop &&
          r.timeindex_resolution == r0.timeindex_resolution) = true
      · rw [if_pos h2]
        rw [if_neg]
        · exact ⟨_, rfl⟩
        · intro hall
          rw [List.all_eq_true] at hall
          have hlen := hall r hr
          rw [beq_iff_eq] at hlen
          rcases List.mem_cons.mp hr with rfl | hmem
          · exact hrlen hlen
          · have ht := List.all_eq_true.mp h2 r hmem
            simp only [Bool.and_eq_true, beq_iff_eq] at ht
            rw [ht.1.1, ht.1.2, ht.2] at hrlen
            exact hrlen hlen
      · rw [if_neg h2]
        exact ⟨_, rfl⟩
    · rw [if_neg h1]
      exact ⟨_, rfl⟩

/-- Witness for C3: a one-row stacked table whose two-value series contradicts
its three-entry implied index fails. -/
theorem unstack_length_mismatch_fails_witness :
    ∃ e, unstack_timeseries [⟨"A", 0, 2, 1, [1, 2]⟩] = Except.error e :=
  unstack_length_mismatch_fails [⟨"A", 0, 2, 1, [1, 2]⟩]
    ⟨⟨"A", 0, 2, 1, [1, 2]⟩, by decide, by decide⟩

/-- C4: on the concrete hourly table with index
`2021-01-01 00:00 / 01:00 / 02:00` (encoded as hour offsets `0, 1, 2` with
hourly resolution `1`) and columns `A = [1,2,3]`, `B = [4,5,6]`, `stack`
yields exactly the two expected five-field rows in order, and `unstack` of
that result reproduces the original table exactly. -/
theorem stack_concrete_scenario :
    stack_timeseries ⟨[0, 1, 2], [("A", [1, 2, 3]), ("B", [4, 5, 6])]⟩
      = Except.ok [⟨"A", 0, 2, 1, [1, 2, 3]⟩, ⟨"B", 0, 2, 1, [4, 5, 6]⟩]
    ∧ unstack_timeseries [⟨"A", 0, 2, 1, [1, 2, 3]⟩, ⟨"B", 0, 2, 1, [4, 5, 6]⟩]
      = Except.ok ⟨[0, 1, 2], [("A", [1, 2, 3]), ("B", [4, 5, 6])]⟩ := by
  refine ⟨by decide, by decide⟩

/-- C5: `stack` on a wide table having two positions with the same column
name fails with the duplicate-column error rather than producing two rows
with the same `var_name`. -/
theorem stack_duplicate_columns_rejected (df : Wide)
    (h : ∃ i, ∃ j, ∃ (hi : i < df.columns.length) (hj : j < df.columns.length),
      i ≠ j ∧ (df.columns.get ⟨i, hi⟩).1 = (df.columns.get ⟨j, hj⟩).1) :
    stack_timeseries df = Except.error CodecError.duplicateColumn := by
  obtain ⟨i, j, hi, hj, hij, heq⟩ := h
  rw [stack_timeseries, if_neg]
  intro hnd
  have hinj := List.nodup_iff_injective_get.mp hnd
  have hget : (df.columns.map Prod.fst).get ⟨i, by simpa using hi⟩
      = (df.columns.map Prod.fst).get ⟨j, by simpa using hj⟩ := by
    rw [List.get_map, List.get_map]
    exact heq
  exact hij (congrArg Fin.val (hinj hget))

/-- Witness for C5: a table with two columns named `A` is rejected. -/
theorem stack_duplicate_columns_rejected_witness :
    stack_timeseries ⟨[0, 1], [("A", [1, 2]), ("A", [3, 4])]⟩
      = Except.error CodecError.duplicateColumn :=
  stack_duplicate_columns_rejected ⟨[0, 1], [("A", [1, 2]), ("A", [3, 4])]⟩
    ⟨0, 1, by decide, by decide, by decide, by decide⟩

/-!
## Claims about `prepare_heat_demand.py` and `optimize.py`
-/

/-- Unfolding equation for `get_heat_demand` when the filtered scalars are
nonempty. -/
theorem get_heat_demand_cons (sc : List ScalarRow)
    (scenario carrier region : String) (r0 : ScalarRow) (rest : List ScalarRow)
    (hH : heat_filtered sc scenario carrier region = r0 :: rest) :
    get_heat_demand sc scenario carrier region =
      if (r0 :: rest).all (fun r => r.var_unit == r0.var_unit) then
        Except.ok (consumers.foldl (process_consumer carrier (r0 :: rest)) [],
          [r0.var_unit],
          consumers.filterMap (fun c =>
            if 1 < (consumer_rows (r0 :: rest) c).length then
              some (duplicate_warning c carrier region scenario)
            else none))
      else Except.error DemandError.unitMismatch := by
  unfold get_heat_demand
  rw [hH]

/-- C7: when the demand rows filtered for the given carrier, region and
scenario do not all carry the first row's `var_unit`, `get_heat_demand`
raises the unit-mismatch `ValueError` and returns no result. -/
theorem get_heat_demand_unit_mismatch_fails (sc : List ScalarRow)
    (scenario carrier region : String) (r0 : ScalarRow)
    (hhead : (heat_filtered sc scenario carrier region).head? = some r0)
    (hmism : ∃ r ∈ heat_filtered sc scenario carrier region, r.var_unit ≠ r0.var_unit) :
    get_heat_demand sc scenario carrier region
      = Except.error DemandError.unitMismatch := by
  obtain ⟨r, hr, hru⟩ := hmism
  rcases hH : heat_filtered sc scenario carrier region with _ | ⟨a, rest⟩
  · rw [hH] at hhead
    simp at hhead
  · rw [hH] at hhead hr
    have ha : a = r0 := by simpa using hhead
    subst ha
    rw [get_heat_demand_cons sc scenario carrier region a rest hH, if_neg]
    intro hall
    rw [List.all_eq_true] at hall
    have hu := hall r hr
    rw [beq_iff_eq] at hu
    exact hru hu

/-- Witness for C7: two demand rows with units `GWh` and `MWh` make
`get_heat_demand` fail. -/
theorem get_heat_demand_unit_mismatch_fails_witness :
    get_heat_demand
      [⟨"efh", "demand", "heat_central", "BB", "base", "GWh", 3⟩,
       ⟨"ghd", "demand", "heat_central", "BB", "base", "MWh", 5⟩]
      "base" "heat_central" "BB" = Except.error DemandError.unitMismatch :=
  get_heat_demand_unit_mismatch_fails _ "base" "heat_central" "BB"
    ⟨"efh", "demand", "heat_central", "BB", "base", "GWh", 3⟩
    (by decide)
    ⟨⟨"ghd", "demand", "heat_central", "BB", "base", "MWh", 5⟩, by decide, by decide⟩

/-- C8: every failure inside the `try` block of `optimize.py` (building the
energy system, constructing the model, adding the constraint, solving) is
caught, logged with a message carrying the preprocessed datapackage path, and
re-raised unchanged, with no dump; results are dumped exactly when the whole
block succeeded. -/
theorem optimize_failure_logged_and_reraised {ES M : Type} (st : OptSteps ES M)
    (preprocessed : String) :
    (∀ e, optimize_try_block st = Except.error e →
      (optimize_main st preprocessed).result = Except.error e
      ∧ (optimize_main st preprocessed).log = [optimize_log_message preprocessed]
      ∧ preprocessed.data <:+ (optimize_log_message preprocessed).data
      ∧ (optimize_main st preprocessed).dumped = false)
    ∧ (∀ m, optimize_try_block st = Except.ok m →
      (optimize_main st preprocessed).result = Except.ok m
      ∧ (optimize_main st preprocessed).dumped = true) := by
  constructor
  · intro e he
    unfold optimize_main
    rw [he]
    refine ⟨rfl, rfl, ?_, rfl⟩
    exact ⟨("Could not optimize energysystem for datapackage from ").data,
      (String.data_append _ _).symm⟩
  · intro m hm
    unfold optimize_main
    rw [hm]
    exact ⟨rfl, rfl⟩

/-- Environment in which all oemof steps succeed except the solver call. -/
def opt_steps_solver_failure : OptSteps Unit Unit :=
  { energysystem_from_datapackage := .ok ()
    model_of := fun _ => .ok ()
    emission_limit := none
    add_emission_constraint := fun _ _ => .ok ()
    solve := fun _ => .error "solver failure" }

/-- Witness for C8: a failing solver call is logged with the datapackage path
and re-raised, and nothing is dumped. -/
theorem optimize_failure_logged_and_reraised_witness :
    (optimize_main opt_steps_solver_failure "results/base/preprocessed").result
        = Except.error "solver failure"
    ∧ (optimize_main opt_steps_solver_failure "results/base/preprocessed").log
        = [optimize_log_message "results/base/preprocessed"]
    ∧ ("results/base/preprocessed").data
        <:+ (optimize_log_message "results/base/preprocessed").data
    ∧ (optimize_main opt_steps_solver_failure "results/base/preprocessed").dumped
        = false :=
  (optimize_failure_logged_and_reraised opt_steps_solver_failure
    "results/base/preprocessed").1 "solver failure" rfl

/-- Dividing every list entry by the same value divides the sum. -/
theorem sum_map_div (l : List ℚ) (t : ℚ) :
    (l.map (fun x => x / t)).sum = l.sum / t := by
  induction l with
  | nil => simp
  | cons a l ih => simp [ih, div_add_div_same]

theorem getD_zipWith_add (l1 l2 : List ℚ) (i : ℕ)
    (h1 : i < l1.length) (h2 : i < l2.length) :
    (List.zipWith (· + ·) l1 l2).getD i 0 = l1.getD i 0 + l2.getD i 0 := by
  induction l1 generalizing l2 i with
  | nil => simp at h1
  | cons a t ih =>
    cases l2 with
    | nil => simp at h2
    | cons b u =>
      cases i with
      | zero => simp
      | succ n => simpa using ih u n (by simpa using h1) (by simpa using h2)

theorem getD_map_div (l : List ℚ) (t : ℚ) (i : ℕ) (hi : i < l.length) :
    (l.map (fun x => x / t)).getD i 0 = l.getD i 0 / t := by
  rw [List.getD_eq_get _ _ (by simpa using hi), List.getD_eq_get _ _ hi,
    List.get_map]

/-- C9: whenever the three consumer profiles have a common length and their
grand total is nonzero, `calculate_heat_load` returns the single column
`carrier ++ "-load-profile"` whose entry at each timestamp is the sum of the
three profiles there divided by the grand total, so the column sums to 1
exactly. -/
theorem calculate_heat_load_normalized (carrier : String) (efh mfh ghd : List ℚ)
    (hm : mfh.length = efh.length) (hg : ghd.length = efh.length)
    (htot : (heat_load_row_sums efh mfh ghd).sum ≠ 0) :
    (calculate_heat_load carrier efh mfh ghd).1 = carrier ++ "-load-profile"
    ∧ (calculate_heat_load carrier efh mfh ghd).2.length = efh.length
    ∧ (∀ i < efh.length,
        (calculate_heat_load carrier efh mfh ghd).2.getD i 0
          = (efh.getD i 0 + mfh.getD i 0 + ghd.getD i 0)
              / (heat_load_row_sums efh mfh ghd).sum)
    ∧ (calculate_heat_load carrier efh mfh ghd).2.sum = 1 := by
  have hlen : (heat_load_row_sums efh mfh ghd).length = efh.length := by
    simp [heat_load_row_sums, hm, hg]
  refine ⟨rfl, ?_, ?_, ?_⟩
  · simp [calculate_heat_load, hlen]
  · intro i hi
    have h12 : i < (List.zipWith (· + ·) efh mfh).length := by
      simp [hm]
      omega
    show ((heat_load_row_sums efh mfh ghd).map
      (fun x => x / (heat_load_row_sums efh mfh ghd).sum)).getD i 0 = _
    rw [getD_map_div _ _ i (by omega)]
    unfold heat_load_row_sums
    rw [getD_zipWith_add _ _ i h12 (by omega), getD_zipWith_add _ _ i (by omega) (by omega)]
  · show ((heat_load_row_sums efh mfh ghd).map
      (fun x => x / (heat_load_row_sums efh mfh ghd).sum)).sum = 1
    rw [sum_map_div, div_self htot]

/-- Witness for C9: three two-entry profiles with grand total 21 produce a
normalized column summing to 1. -/
theorem calculate_heat_load_normalized_witness :
    (calculate_heat_load "heat_central" [1, 2] [3, 4] [5, 6]).1
        = "heat_central" ++ "-load-profile"
    ∧ (calculate_heat_load "heat_central" [1, 2] [3, 4] [5, 6]).2.length
        = ([1, 2] : List ℚ).length
    ∧ (∀ i < ([1, 2] : List ℚ).length,
        (calculate_heat_load "heat_central" [1, 2] [3, 4] [5, 6]).2.getD i 0
          = (([1, 2] : List ℚ).getD i 0 + ([3, 4] : List ℚ).getD i 0
              + ([5, 6] : List ℚ).getD i 0)
              / (heat_load_row_sums [1, 2] [3, 4] [5, 6]).sum)
    ∧ (calculate_heat_load "heat_central" [1, 2] [3, 4] [5, 6]).2.sum = 1 :=
  calculate_heat_load_normalized "heat_central" [1, 2] [3, 4] [5, 6]
    (by decide) (by decide) (by norm_num [heat_load_row_sums])

theorem mem_years_search_array (y : ℕ) :
    y ∈ years_search_array ↔ 1990 ≤ y ∧ y ≤ 2050 := by
  simp only [years_search_array, List.mem_map, List.mem_range]
  constructor
  · rintro ⟨i, hi, rfl⟩
    omega
  · rintro ⟨h1, h2⟩
    exact ⟨y - 1990, by omega, by omega⟩

theorem years_search_array_nodup : years_search_array.Nodup := by
  apply List.Nodup.map _ (List.nodup_range 61)
  intro a b hab
  dsimp at hab
  omega

/-- A duplicate-free list whose members all equal `y`, containing `y`, is
`[y]`. -/
theorem nodup_all_eq_singleton {l : List ℕ} {y : ℕ} (hnd : l.Nodup)
    (hy : y ∈ l) (hall : ∀ z ∈ l, z = y) : l = [y] := by
  cases l with
  | nil => simp at hy
  | cons a t =>
    have ha : a = y := hall a (by simp)
    subst ha
    have ht : t = [] := by
      by_contra hne
      obtain ⟨b, hb⟩ := List.exists_mem_of_ne_nil t hne
      have hb' : b = a := hall b (List.mem_cons_of_mem _ hb)
      subst hb'
      exact (List.nodup_cons.mp hnd).1 hb
    rw [ht]

/-- C10: `get_year` returns the year `y` exactly when `y` is the unique year
in 1990..2050 whose decimal representation occurs as a substring of the file
name; when no year or more than one distinct year occurs, it raises
`ValueError`. -/
theorem get_year_spec (file_name : String) :
    (∀ y, get_year file_name = Except.ok y ↔
      (y ∈ years_search_array
        ∧ contains_str file_name (toString y) = true
        ∧ ∀ z ∈ years_search_array,
            contains_str file_name (toString z) = true → z = y))
    ∧ ((¬ ∃ y ∈ years_search_array,
          contains_str file_name (toString y) = true ∧
            ∀ z ∈ years_search_array,
              contains_str file_name (toString z) = true → z = y) →
        get_year file_name = Except.error year_error_message) := by
  have hnd : (years_search_array.filter
      (fun z => contains_str file_name (toString z))).Nodup :=
    years_search_array_nodup.filter _
  have hfwd : ∀ y, get_year file_name = Except.ok y →
      y ∈ years_search_array
        ∧ contains_str file_name (toString y) = true
        ∧ ∀ z ∈ years_search_array,
            contains_str file_name (toString z) = true → z = y := by
    intro y hok
    unfold get_year at hok
    rcases hl : years_search_array.filter
        (fun z => contains_str file_name (toString z)) with _ | ⟨a, _ | ⟨b, t⟩⟩ <;>
      rw [hl] at hok <;> simp at hok
    subst hok
    have ha : a ∈ years_search_array.filter
        (fun z => contains_str file_name (toString z)) := by
      rw [hl]
      simp
    have ha' := List.mem_filter.mp ha
    refine ⟨ha'.1, ha'.2, ?_⟩
    intro z hz hpz
    have hzf : z ∈ years_search_array.filter
        (fun z => contains_str file_name (toString z)) :=
      List.mem_filter.mpr ⟨hz, hpz⟩
    rw [hl] at hzf
    simpa using hzf
  have hbwd : ∀ y,
      (y ∈ years_search_array
        ∧ contains_str file_name (toString y) = true
        ∧ ∀ z ∈ years_search_array,
            contains_str file_name (toString z) = true → z = y) →
      get_year file_name = Except.ok y := by
    rintro y ⟨hy, hp, huniq⟩
    have hsing : years_search_array.filter
        (fun z => contains_str file_name (toString z)) = [y] :=
      nodup_all_eq_singleton hnd (List.mem_filter.mpr ⟨hy, hp⟩)
        (fun z hz => huniq z (List.mem_filter.mp hz).1 (List.mem_filter.mp hz).2)
    unfold get_year
    rw [hsing]
  refine ⟨fun y => ⟨hfwd y, hbwd y⟩, ?_⟩
  intro hno
  rcases hl : years_search_array.filter
      (fun z => contains_str file_name (toString z)) with _ | ⟨a, _ | ⟨b, t⟩⟩
  · unfold get_year
    rw [hl]
  · exfalso
    apply hno
    have := hfwd a (by unfold get_year; rw [hl])
    exact ⟨a, this.1, this.2.1, this.2.2⟩
  · unfold get_year
    rw [hl]

/-- Witness for C10: the file name `weather_BB_2019.csv` contains exactly the
year 2019, which `get_year` returns. -/
theorem get_year_spec_witness :
    get_year "weather_BB_2019.csv" = Except.ok 2019 :=
  ((get_year_spec "weather_BB_2019.csv").1 2019).mpr (by decide)

/-!
## Lemmas about the demand accumulator of `get_heat_demand`
-/

theorem lookup_cons_eq (k : String) (b : ℚ) (t : List (String × ℚ)) :
    List.lookup k ((k, b) :: t) = some b := by
  rw [List.lookup_cons]
  simp

theorem lookup_cons_ne (k a : String) (b : ℚ) (t : List (String × ℚ))
    (h : k ≠ a) :
    List.lookup k ((a, b) :: t) = List.lookup k t := by
  rw [List.lookup_cons]
  have hb : (k == a) = false := beq_eq_false_iff_ne.mpr h
  rw [hb]

theorem lookup_append_right_none (d e : List (String × ℚ)) (k : String)
    (h : d.lookup k = none) : (d ++ e).lookup k = e.lookup k := by
  induction d with
  | nil => rfl
  | cons p t ih =>
    obtain ⟨a, b⟩ := p
    by_cases hk : k = a
    · subst hk
      rw [lookup_cons_eq] at h
      cases h
    · rw [lookup_cons_ne _ _ _ _ hk] at h
      rw [List.cons_append, lookup_cons_ne _ _ _ _ hk]
      exact ih h

theorem lookup_map_update (d : List (String × ℚ)) (k : String) (v : ℚ) :
    (d.map (fun p => if p.1 = k then (p.1, p.2 + v) else p)).lookup k
      = (d.lookup k).map (fun a => a + v) := by
  induction d with
  | nil => rfl
  | cons p t ih =>
    obtain ⟨a, b⟩ := p
    by_cases ha : a = k
    · subst ha
      have hhead : (if (a, b).1 = a then ((a, b).1, (a, b).2 + v) else (a, b))
          = (a, b + v) := by simp
      rw [List.map_cons, hhead, lookup_cons_eq, lookup_cons_eq]
      rfl
    · have hhead : (if (a, b).1 = k then ((a, b).1, (a, b).2 + v) else (a, b))
          = (a, b) := by simp [ha]
      rw [List.map_cons, hhead,
        lookup_cons_ne _ _ _ _ (fun h => ha h.symm),
        lookup_cons_ne _ _ _ _ (fun h => ha h.symm)]
      exact ih

theorem lookup_update_other (d : List (String × ℚ)) (k k' : String) (v : ℚ)
    (hne : k' ≠ k) :
    (d.map (fun p => if p.1 = k' then (p.1, p.2 + v) else p)).lookup k
      = d.lookup k := by
  induction d with
  | nil => rfl
  | cons p t ih =>
    obtain ⟨a, b⟩ := p
    by_cases ha : a = k'
    · subst ha
      have hhead : (if (a, b).1 = a then ((a, b).1, (a, b).2 + v) else (a, b))
          = (a, b + v) := by simp
      rw [List.map_cons, hhead, lookup_cons_ne _ _ _ _ (Ne.symm hne),
        lookup_cons_ne _ _ _ _ (Ne.symm hne)]
      exact ih
    · have hhead : (if (a, b).1 = k' then ((a, b).1, (a, b).2 + v) else (a, b))
          = (a, b) := by simp [ha]
      rw [List.map_cons, hhead]
      by_cases hk : k = a
      · subst hk
        rw [lookup_cons_eq, lookup_cons_eq]
      · rw [lookup_cons_ne _ _ _ _ hk, lookup_cons_ne _ _ _ _ hk]
        exact ih

theorem lookup_append_single_other (d : List (String × ℚ)) (k k' : String)
    (v : ℚ) (hne : k' ≠ k) : (d ++ [(k', v)]).lookup k = d.lookup k := by
  induction d with
  | nil =>
    show List.lookup k [(k', v)] = none
    rw [lookup_cons_ne _ _ _ _ (Ne.symm hne)]
    rfl
  | cons p t ih =>
    obtain ⟨a, b⟩ := p
    by_cases hk : k = a
    · subst hk
      rw [List.cons_append, lookup_cons_eq, lookup_cons_eq]
    · rw [List.cons_append, lookup_cons_ne _ _ _ _ hk, lookup_cons_ne _ _ _ _ hk]
      exact ih

theorem lookup_check_central_decentral_other (d : List (String × ℚ)) (v : ℚ)
    (consumer carrier k : String)
    (hne : demand_key consumer carrier ≠ k) :
    (check_central_decentral d v consumer carrier).lookup k = d.lookup k := by
  unfold check_central_decentral
  by_cases h : (d.lookup (demand_key consumer carrier)).isSome
  · rw [if_pos h]
    exact lookup_update_other d k _ v hne
  · rw [if_neg h]
    exact lookup_append_single_other d k _ v hne

theorem lookup_fold_values_some (carrier c : String) (vs : List ℚ)
    (d : List (String × ℚ)) (a : ℚ)
    (h : d.lookup (demand_key c carrier) = some a) :
    (vs.foldl (fun d v => check_central_decentral d v c carrier) d).lookup
      (demand_key c carrier) = some (a + vs.sum) := by
  induction vs generalizing d a with
  | nil => simpa using h
  | cons v vs ih =>
    rw [List.foldl_cons]
    have hstep : (check_central_decentral d v c carrier).lookup
        (demand_key c carrier) = some (a + v) := by
      unfold check_central_decentral
      rw [if_pos (by rw [h]; rfl), lookup_map_update, h]
      rfl
    rw [ih _ _ hstep]
    congr 1
    rw [List.sum_cons]
    ring

theorem lookup_fold_values_none (carrier c : String) (v : ℚ) (vs : List ℚ)
    (d : List (String × ℚ))
    (h : d.lookup (demand_key c carrier) = none) :
    ((v :: vs).foldl (fun d v => check_central_decentral d v c carrier) d).lookup
      (demand_key c carrier) = some ((v :: vs).sum) := by
  rw [List.foldl_cons]
  have hstep : (check_central_decentral d v c carrier).lookup
      (demand_key c carrier) = some v := by
    unfold check_central_decentral
    rw [if_neg (by rw [h]; simp), lookup_append_right_none _ _ _ h, lookup_cons_eq]
  rw [lookup_fold_values_some carrier c vs _ v hstep, List.sum_cons]

theorem lookup_process_consumer_other (carrier : String) (scf : List ScalarRow)
    (c' : String) (d : List (String × ℚ)) (k : String)
    (hne : demand_key c' carrier ≠ k) :
    (process_consumer carrier scf d c').lookup k = d.lookup k := by
  unfold process_consumer
  generalize (consumer_rows scf c').map ScalarRow.var_value = vs
  induction vs generalizing d with
  | nil => rfl
  | cons v vs ih =>
    rw [List.foldl_cons, ih]
    exact lookup_check_central_decentral_other d v c' carrier k hne

theorem lookup_process_consumer_none (carrier : String) (scf : List ScalarRow)
    (c : String) (d : List (String × ℚ))
    (hne : consumer_rows scf c ≠ [])
    (h : d.lookup (demand_key c carrier) = none) :
    (process_consumer carrier scf d c).lookup (demand_key c carrier)
      = some (((consumer_rows scf c).map ScalarRow.var_value).sum) := by
  unfold process_consumer
  rcases hm : (consumer_rows scf c).map ScalarRow.var_value with _ | ⟨v, vs⟩
  · exact absurd (List.map_eq_nil.mp hm) hne
  · exact lookup_fold_values_none carrier c v vs d h

/-- Two consumer column keys with equal-length distinct consumer names are
distinct, whatever the carrier. -/
theorem demand_key_ne (c1 c2 carrier : String)
    (hlen : c1.data.length = c2.data.length) (hne : c1 ≠ c2) :
    demand_key c1 carrier ≠ demand_key c2 carrier := by
  intro h
  apply hne
  have hdata := congrArg String.data h
  unfold demand_key at hdata
  simp only [String.data_append, List.append_assoc] at hdata
  exact String.ext (List.append_inj hdata hlen).1

/-- The value stored for consumer `c` after `get_heat_demand` has folded all
three consumers is the sum of `c`'s demand values. -/
theorem lookup_consumers_fold (carrier : String) (scf : List ScalarRow)
    (c : String) (hc : c ∈ consumers)
    (hne : consumer_rows scf c ≠ []) :
    (consumers.foldl (process_consumer carrier scf) []).lookup
      (demand_key c carrier)
      = some (((consumer_rows scf c).map ScalarRow.var_value).sum) := by
  have hfold : consumers.foldl (process_consumer carrier scf) []
      = process_consumer carrier scf (process_consumer carrier scf
          (process_consumer carrier scf [] "ghd") "efh") "mfh" := rfl
  rw [hfold]
  simp only [consumers, List.mem_cons, List.mem_singleton, List.not_mem_nil,
    or_false] at hc
  rcases hc with rfl | rfl | rfl
  · rw [lookup_process_consumer_other carrier scf "mfh" _ _
        (demand_key_ne "mfh" "ghd" carrier rfl (by decide)),
      lookup_process_consumer_other carrier scf "efh" _ _
        (demand_key_ne "efh" "ghd" carrier rfl (by decide))]
    exact lookup_process_consumer_none carrier scf "ghd" [] hne rfl
  · rw [lookup_process_consumer_other carrier scf "mfh" _ _
        (demand_key_ne "mfh" "efh" carrier rfl (by decide))]
    refine lookup_process_consumer_none carrier scf "efh" _ hne ?_
    rw [lookup_process_consumer_other carrier scf "ghd" _ _
        (demand_key_ne "ghd" "efh" carrier rfl (by decide))]
    rfl
  · refine lookup_process_consumer_none carrier scf "mfh" _ hne ?_
    rw [lookup_process_consumer_other carrier scf "efh" _ _
        (demand_key_ne "efh" "mfh" carrier rfl (by decide)),
      lookup_process_consumer_other carrier scf "ghd" _ _
        (demand_key_ne "ghd" "mfh" carrier rfl (by decide))]
    rfl

/-- C6: when the filtered scalar data contains more than one demand row for
the same consumer, carrier, region and scenario (and the rows' units agree,
so that the earlier unit check passes), `get_heat_demand` does not fail: it
returns normally, the duplicate warning for that consumer is among the
printed warnings, and the value stored for the `consumer_carrier` column is
the sum of the duplicate rows' `var_value` entries. -/
theorem get_heat_demand_duplicates_summed (sc : List ScalarRow)
    (scenario carrier region c u : String)
    (hc : c ∈ consumers)
    (hu : ∀ r ∈ heat_filtered sc scenario carrier region, r.var_unit = u)
    (hdup : 1 < (consumer_rows (heat_filtered sc scenario carrier region) c).length) :
    ∃ demands units warnings,
      get_heat_demand sc scenario carrier region
        = Except.ok (demands, units, warnings)
      ∧ duplicate_warning c carrier region scenario ∈ warnings
      ∧ demands.lookup (demand_key c carrier)
          = some (((consumer_rows (heat_filtered sc scenario carrier region) c).map
              ScalarRow.var_value).sum) := by
  rcases hH : heat_filtered sc scenario carrier region with _ | ⟨r0, rest⟩
  · rw [hH] at hdup
    simp [consumer_rows] at hdup
  · rw [hH] at hdup hu
    have hall : (r0 :: rest).all (fun r => r.var_unit == r0.var_unit) = true := by
      rw [List.all_eq_true]
      intro r hr
      rw [beq_iff_eq, hu r hr, hu r0 (List.mem_cons_self r0 rest)]
    refine ⟨consumers.foldl (process_consumer carrier (r0 :: rest)) [],
      [r0.var_unit],
      consumers.filterMap (fun x =>
        if 1 < (consumer_rows (r0 :: rest) x).length then
          some (duplicate_warning x carrier region scenario)
        else none), ?_, ?_, ?_⟩
    · rw [get_heat_demand_cons sc scenario carrier region r0 rest hH, if_pos hall]
    · exact List.mem_filterMap.mpr ⟨c, hc, by rw [if_pos hdup]⟩
    · exact lookup_consumers_fold carrier (r0 :: rest) c hc
        (by intro hnil; rw [hnil] at hdup; simp at hdup)

/-- Witness for C6: two `efh` demand rows with values 3 and 5 are summed to 8
under a duplicate warning. -/
theorem get_heat_demand_duplicates_summed_witness :
    ∃ demands units warnings,
      get_heat_demand
        [⟨"efh_a", "demand", "heat_central", "BB", "base", "GWh", 3⟩,
         ⟨"efh_b", "demand", "heat_central", "BB", "base", "GWh", 5⟩]
        "base" "heat_central" "BB" = Except.ok (demands, units, warnings)
      ∧ duplicate_warning "efh" "heat_central" "BB" "base" ∈ warnings
      ∧ demands.lookup (demand_key "efh" "heat_central")
          = some (((consumer_rows (heat_filtered
              [⟨"efh_a", "demand", "heat_central", "BB", "base", "GWh", 3⟩,
               ⟨"efh_b", "demand", "heat_central", "BB", "base", "GWh", 5⟩]
              "base" "heat_central" "BB") "efh").map ScalarRow.var_value).sum) :=
  get_heat_demand_duplicates_summed
    [⟨"efh_a", "demand", "heat_central", "BB", "base", "GWh", 3⟩,
     ⟨"efh_b", "demand", "heat_central", "BB", "base", "GWh", 5⟩]
    "base" "heat_central" "BB" "efh" "GWh"
    (by decide) (by decide) (by decide)
